import Mathlib

/-!
Verification of the RPSLS (rock-paper-scissors-lizard-spock) game engine
in `src/rpsls.py`.

The Python source is shallowly embedded: the five moves become an enum,
the `PatternDetector` and game objects become structures threaded through
pure functions, and every call to `random.choice(l)` is modelled by an
explicit entropy parameter `r : Nat` selecting `l[r % l.length]` (so a
choice always returns an element of a nonempty list, exactly like
`random.choice`).

`Counter` semantics: a Python `Counter` built from a list iterates its
items in first-insertion order, and `most_common(1)` is stable, returning
the earliest-inserted element among those of maximal count.  This is
modelled by `tally` (an order-preserving association list) and
`most_common1`.

Floating point: the source compares `count / total >= 0.3` with Python
floats.  For every count and total with `0 < total ≤ 50` (the rolling
window holds at most 50 moves) the double-precision comparison agrees
with the exact rational comparison `count / total ≥ 3/10`, because the
double nearest to `0.3` is within `2e-17` of `3/10` while any rational
`k/n` with `n ≤ 50` that differs from `3/10` differs by at least `1/500`.
The threshold is therefore modelled as the rational `3/10`.

The pattern cache is keyed in Python by `''.join(recent_moves)`; since no
move name is a prefix of another, that string determines the move list,
so the cache is modelled with `List Move` keys.
-/

inductive Move where
  | rock
  | paper
  | scissors
  | lizard
  | spock
deriving DecidableEq, Repr, Fintype

open Move

/-- `RPSLSState.MOVES` from the source: the fixed ordered table of moves. -/
def MOVES : List Move := [rock, paper, scissors, lizard, spock]

/-- `RPSLSState.WINS_AGAINST`: the moves each move defeats. -/
def WINS_AGAINST : Move → List Move
  | rock => [scissors, lizard]
  | paper => [rock, spock]
  | scissors => [paper, lizard]
  | lizard => [paper, spock]
  | spock => [rock, scissors]

/-- `RPSLSState.get_result(move1, move2)`: 0 draw, 1 win, -1 loss. -/
def get_result (move1 move2 : Move) : Int :=
  if move1 = move2 then 0
  else if move2 ∈ WINS_AGAINST move1 then 1
  else -1

/-- One step of building a Python `Counter` from a list: increment the
count of `x` if present, otherwise append `(x, 1)` at the end
(dictionaries preserve insertion order). -/
def bump {α : Type} [DecidableEq α] : List (α × Nat) → α → List (α × Nat)
  | [], x => [(x, 1)]
  | (y, n) :: rest, x =>
      if x = y then (y, n + 1) :: rest else (y, n) :: bump rest x

/-- `Counter(l)` as an ordered association list: keys in first-occurrence
order, each paired with its multiplicity in `l`. -/
def tally {α : Type} [DecidableEq α] (l : List α) : List (α × Nat) :=
  l.foldl bump []

/-- One comparison step of a stable maximum-by-count scan: keep the
current best entry unless the next entry's count is strictly larger (so
ties keep the earlier entry). -/
def mc_step {α : Type} : Option (α × Nat) → (α × Nat) → Option (α × Nat)
  | none, p => some p
  | some q, p => if p.2 > q.2 then some p else some q

/-- `Counter(l).most_common(1)[0][0]` for nonempty `l`: the earliest
first-occurring element among those of maximal count (`none` iff `l` is
empty, where Python would raise an IndexError). -/
def most_common1 {α : Type} [DecidableEq α] (l : List α) : Option α :=
  ((tally l).foldl mc_step none).map Prod.fst

/-- The `PatternDetector` object: configuration, the rolling window of at
most 50 opponent moves (`deque(maxlen=50)`), and the pattern cache. -/
structure PatternDetector where
  window_size : Nat := 3
  frequency_threshold : ℚ := 3 / 10
  move_history : List Move := []
  pattern_cache : List (List Move × Move) := []
deriving DecidableEq, Repr

/-- `PatternDetector.add_move`: append to the rolling window, evicting the
oldest entry once the deque exceeds its `maxlen` of 50. -/
def add_move (pd : PatternDetector) (move : Move) : PatternDetector :=
  { pd with move_history :=
      let h := pd.move_history ++ [move]
      if h.length > 50 then h.tail else h }

/-- Dictionary lookup in the pattern cache (keys are unique, so the first
match is the only one). -/
def lookupCache : List (List Move × Move) → List Move → Option Move
  | [], _ => none
  | (k, v) :: rest, key => if key = k then some v else lookupCache rest key

/-- `recent_moves` in `get_pattern_prediction`: the last `window_size`
entries of the rolling window (`list(history)[-window_size:]`). -/
def recent_moves (pd : PatternDetector) : List Move :=
  pd.move_history.drop (pd.move_history.length - pd.window_size)

/-- `pattern_occurrences` in `get_pattern_prediction`: for every start
index `i < len(history) - window_size` whose `window_size`-slice equals
`recent_moves` (and has, as the range bound already guarantees, a
successor), collect the immediately following move, in scan order. -/
def pattern_occurrences (pd : PatternDetector) : List Move :=
  (List.range (pd.move_history.length - pd.window_size)).filterMap
    (fun i =>
      if (pd.move_history.drop i).take pd.window_size = recent_moves pd
          ∧ i + pd.window_size < pd.move_history.length then
        pd.move_history.get? (i + pd.window_size)
      else none)

/-- `PatternDetector.get_pattern_prediction`, returning the prediction and
the (possibly cache-extended) detector.  The `most_common1 = none` branch
corresponds exactly to the source's `if pattern_occurrences:` guard being
false, since `most_common1 l = none` iff `l = []`. -/
def get_pattern_prediction (pd : PatternDetector) :
    Option Move × PatternDetector :=
  if pd.move_history.length < pd.window_size then (none, pd)
  else
    match lookupCache pd.pattern_cache (recent_moves pd) with
    | some cached => (some cached, pd)
    | none =>
        match most_common1 (pattern_occurrences pd) with
        | some prediction =>
            (some prediction,
             { pd with pattern_cache :=
                 pd.pattern_cache ++ [(recent_moves pd, prediction)] })
        | none => (none, pd)

/-- `PatternDetector.get_frequency_bias`: the first move, in
first-occurrence order over the rolling window, whose share of the window
reaches the frequency threshold. -/
def get_frequency_bias (pd : PatternDetector) : Option Move :=
  if pd.move_history = [] then none
  else
    (tally pd.move_history).findSome? fun p =>
      if pd.frequency_threshold ≤ (p.2 : ℚ) / (pd.move_history.length : ℚ)
      then some p.1 else none

/-- The `RPSLSState` per-game histories (the class-level `MOVES` and
`WINS_AGAINST` tables are the top-level constants above). -/
structure RPSLSState where
  player_history : List Move := []
  opponent_history : List Move := []
deriving DecidableEq, Repr

/-- The `RPSLSGame` object. -/
structure RPSLSGame where
  state : RPSLSState := {}
  pattern_detector : PatternDetector := {}
deriving DecidableEq, Repr

/-- `RPSLSGame()`: a freshly constructed game. -/
def newGame : RPSLSGame := {}

/-- `possible_counters` in `get_counter_move`: the moves whose win list
contains the given move. -/
def possible_counters (move : Move) : List Move :=
  MOVES.filter (fun m => move ∈ WINS_AGAINST m)

/-- `random.choice(l)` for nonempty `l`, with the draw supplied as an
explicit entropy value `r`: returns `l[r % len(l)]`, always an element of
`l`. -/
def choice (l : List Move) (r : Nat) : Move :=
  l.getD (r % l.length) rock

/-- `RPSLSGame.get_counter_move`: a uniformly random move that beats the
given move. -/
def get_counter_move (move : Move) (r : Nat) : Move :=
  choice (possible_counters move) r

/-- `opponent_history[-5:]`: the last 5 entries (the whole list when it is
shorter). -/
def last5 (l : List Move) : List Move := l.drop (l.length - 5)

/-- `RPSLSGame.get_ai_move`: the tier chain.  Pattern match, then
frequency bias, then most-common of the last 5 opponent moves, then a
uniform random move.  Returns the move and the game with the possibly
cache-extended detector.  In the tier-3 branch the history is nonempty,
so `most_common1` is `some` and the `getD` default is never used (Python
indexes `most_common(1)[0]` unconditionally there). -/
def get_ai_move (g : RPSLSGame) (r : Nat) : Move × RPSLSGame :=
  match get_pattern_prediction g.pattern_detector with
  | (some pattern_prediction, pd) =>
      (get_counter_move pattern_prediction r, { g with pattern_detector := pd })
  | (none, pd) =>
      match get_frequency_bias g.pattern_detector with
      | some frequency_bias =>
          (get_counter_move frequency_bias r, { g with pattern_detector := pd })
      | none =>
          if g.state.opponent_history ≠ [] then
            (get_counter_move
              ((most_common1 (last5 g.state.opponent_history)).getD rock) r,
             { g with pattern_detector := pd })
          else
            (choice MOVES r, { g with pattern_detector := pd })

/-- `moves[(moves.index(last_move) + 1) % len(moves)]` for the cycling
strategy: the successor of the history's last move in table order, or the
first table entry when the history is empty. -/
def cycling_next (history : List Move) : Move :=
  match history.getLast? with
  | none => MOVES.getD 0 rock
  | some last_move =>
      MOVES.getD ((MOVES.indexOf last_move + 1) % MOVES.length) rock

/-- The opponent-move block at the top of `RPSLSGame.play_round`: selects
the opponent's move by strategy name.  `custom_moves = []` covers both
Python's `None` default and an empty list (both falsy). -/
def opponent_move_for (g : RPSLSGame) (opponent_strategy : String)
    (custom_moves : List Move) (round_number : Nat) (r : Nat) : Move :=
  if opponent_strategy = "random" then choice MOVES r
  else if opponent_strategy = "repeating" then
    match g.state.opponent_history.getLast? with
    | some m => m
    | none => choice MOVES r
  else if opponent_strategy = "cycling" then
    cycling_next g.state.opponent_history
  else if opponent_strategy = "custom" then
    if custom_moves ≠ [] ∧ round_number < custom_moves.length then
      custom_moves.getD round_number rock
    else choice MOVES r
  else choice MOVES r

/-- `RPSLSGame.play_round`: one full round.  `rOpp` feeds the opponent's
random draw (when its strategy needs one), `rAI` the predictor's draw.
Returns `((ai_move, opponent_move, result), updated game)`. -/
def play_round (g : RPSLSGame) (opponent_strategy : String)
    (custom_moves : List Move) (round_number : Nat) (rOpp rAI : Nat) :
    (Move × Move × Int) × RPSLSGame :=
  let opponent_move := opponent_move_for g opponent_strategy custom_moves round_number rOpp
  let g1 : RPSLSGame := { g with pattern_detector := add_move g.pattern_detector opponent_move }
  let ai_move := (get_ai_move g1 rAI).1
  let g2 := (get_ai_move g1 rAI).2
  let g3 : RPSLSGame :=
    { g2 with state :=
        { g2.state with
            opponent_history := g2.state.opponent_history ++ [opponent_move],
            player_history := g2.state.player_history ++ [ai_move] } }
  ((ai_move, opponent_move, get_result ai_move opponent_move), g3)

/-- The game states reachable by constructing a fresh game and calling
`play_round` any number of times with any arguments. -/
inductive Reachable : RPSLSGame → Prop where
  | base : Reachable newGame
  | step (g : RPSLSGame) (s : String) (cm : List Move) (rn rOpp rAI : Nat) :
      Reachable g → Reachable (play_round g s cm rn rOpp rAI).2

/-- A 10-move rolling window in which `rock` appears 4 times but `paper`,
with 3 occurrences (share exactly 0.3), occurs first. -/
def c3_window : List Move :=
  [paper, paper, paper, rock, rock, rock, rock, scissors, lizard, spock]

/-- A detector holding `c3_window` with default configuration. -/
def c3_pd : PatternDetector := { move_history := c3_window }

/-- The count stored for key `x` in an association list (0 if absent).
With `Nodup` keys this is the value of the unique entry for `x`. -/
def keyCount {α : Type} [DecidableEq α] : List (α × Nat) → α → Nat
  | [], _ => 0
  | (y, n) :: t, x => if y = x then n else keyCount t x

/-! ### Counter (`tally`) lemmas -/

theorem bump_keyCount_self {α : Type} [DecidableEq α] (t : List (α × Nat)) (x : α) :
    keyCount (bump t x) x = keyCount t x + 1 := by
  induction t with
  | nil => simp [bump, keyCount]
  | cons p t ih =>
      obtain ⟨y, n⟩ := p
      by_cases hxy : x = y
      · subst hxy
        simp [bump, keyCount]
      · simp [bump, keyCount, hxy, Ne.symm hxy, ih]

theorem bump_keyCount_ne {α : Type} [DecidableEq α] (t : List (α × Nat)) (x z : α)
    (h : z ≠ x) : keyCount (bump t x) z = keyCount t z := by
  induction t with
  | nil =>
      rw [bump]
      simp [keyCount, Ne.symm h]
  | cons p t ih =>
      obtain ⟨y, n⟩ := p
      by_cases hxy : x = y
      · subst hxy
        simp [bump, keyCount, Ne.symm h]
      · rw [bump, if_neg hxy]
        by_cases hyz : y = z
        · subst hyz
          simp [keyCount]
        · simp [keyCount, hyz, ih]

theorem foldl_bump_keyCount {α : Type} [DecidableEq α] (l : List α) :
    ∀ (acc : List (α × Nat)) (x : α),
      keyCount (l.foldl bump acc) x = keyCount acc x + l.count x := by
  induction l with
  | nil => intro acc x; simp
  | cons a l ih =>
      intro acc x
      by_cases hax : a = x
      · subst hax
        simp [List.foldl_cons, ih, bump_keyCount_self, List.count_cons]
        omega
      · simp [List.foldl_cons, ih, bump_keyCount_ne acc a x fun e => hax e.symm,
          List.count_cons, hax]

theorem tally_keyCount {α : Type} [DecidableEq α] (l : List α) (x : α) :
    keyCount (tally l) x = l.count x := by
  simpa [tally, keyCount] using foldl_bump_keyCount l [] x

theorem bump_fst_mem {α : Type} [DecidableEq α] (t : List (α × Nat)) (x z : α) :
    z ∈ (bump t x).map Prod.fst ↔ z ∈ t.map Prod.fst ∨ z = x := by
  induction t with
  | nil => simp [bump]
  | cons p t ih =>
      obtain ⟨y, n⟩ := p
      by_cases hxy : x = y
      · subst hxy
        simp [bump]
        tauto
      · simp [bump, hxy, ih]
        tauto

theorem bump_fst_nodup {α : Type} [DecidableEq α] (t : List (α × Nat)) (x : α)
    (h : (t.map Prod.fst).Nodup) : ((bump t x).map Prod.fst).Nodup := by
  induction t with
  | nil => simp [bump]
  | cons p t ih =>
      obtain ⟨y, n⟩ := p
      rw [List.map_cons, List.nodup_cons] at h
      by_cases hxy : x = y
      · subst hxy
        simpa [bump] using h
      · rw [bump, if_neg hxy, List.map_cons, List.nodup_cons]
        refine ⟨?_, ih h.2⟩
        rw [bump_fst_mem]
        rintro (hy | hy)
        · exact h.1 hy
        · exact hxy hy.symm

theorem foldl_bump_fst_mem {α : Type} [DecidableEq α] (l : List α) :
    ∀ (acc : List (α × Nat)) (x : α),
      x ∈ ((l.foldl bump acc).map Prod.fst) ↔ x ∈ acc.map Prod.fst ∨ x ∈ l := by
  induction l with
  | nil => intro acc x; simp
  | cons a l ih =>
      intro acc x
      rw [List.foldl_cons, ih, bump_fst_mem]
      simp
      tauto

theorem tally_fst_nodup {α : Type} [DecidableEq α] (l : List α) :
    ((tally l).map Prod.fst).Nodup := by
  have h : ∀ (acc : List (α × Nat)), (acc.map Prod.fst).Nodup →
      ((l.foldl bump acc).map Prod.fst).Nodup := by
    induction l with
    | nil => intro acc h; simpa using h
    | cons a l ih =>
        intro acc h
        rw [List.foldl_cons]
        exact ih _ (bump_fst_nodup acc a h)
  simpa [tally] using h [] (by simp)

theorem mem_entry_keyCount {α : Type} [DecidableEq α] :
    ∀ (t : List (α × Nat)), (t.map Prod.fst).Nodup →
      ∀ p ∈ t, p.2 = keyCount t p.1 := by
  intro t
  induction t with
  | nil => intro _ p hp; simp at hp
  | cons q t ih =>
      obtain ⟨y, n⟩ := q
      intro h p hp
      rw [List.map_cons, List.nodup_cons] at h
      rcases List.mem_cons.mp hp with hp | hp
      · subst hp
        simp [keyCount]
      · have hy : y ≠ p.1 := by
          intro e
          exact h.1 (List.mem_map.mpr ⟨p, hp, e.symm⟩)
        rw [keyCount, if_neg hy]
        exact ih h.2 p hp

theorem keyCount_entry_mem {α : Type} [DecidableEq α] :
    ∀ (t : List (α × Nat)) (x : α), x ∈ t.map Prod.fst → (x, keyCount t x) ∈ t := by
  intro t
  induction t with
  | nil => intro x hx; simp at hx
  | cons q t ih =>
      obtain ⟨y, n⟩ := q
      intro x hx
      by_cases hyx : y = x
      · subst hyx
        have hn : keyCount ((y, n) :: t) y = n := by simp [keyCount]
        rw [hn]
        exact List.mem_cons_self _ _
      · rw [keyCount, if_neg hyx]
        apply List.mem_cons_of_mem
        rcases List.mem_map.mp hx with ⟨p, hp, he⟩
        rcases List.mem_cons.mp hp with hp | hp
        · rw [hp] at he
          exact absurd he hyx
        · apply ih x
          rw [← he]
          exact List.mem_map_of_mem Prod.fst hp

theorem tally_mem_count {α : Type} [DecidableEq α] (l : List α) (p : α × Nat)
    (hp : p ∈ tally l) : p.2 = l.count p.1 := by
  rw [mem_entry_keyCount (tally l) (tally_fst_nodup l) p hp, tally_keyCount]

theorem mem_tally_of_mem {α : Type} [DecidableEq α] (l : List α) (x : α)
    (h : x ∈ l) : (x, l.count x) ∈ tally l := by
  have hx : x ∈ (tally l).map Prod.fst := by
    rw [tally, foldl_bump_fst_mem]
    exact Or.inr h
  have := keyCount_entry_mem (tally l) x hx
  rwa [tally_keyCount] at this

theorem findSome_eq_of_forall {β γ : Type} (f : β → Option γ) (a : γ) :
    ∀ (t : List β), (∃ x ∈ t, (f x).isSome) →
      (∀ x ∈ t, ∀ y, f x = some y → y = a) → t.findSome? f = some a := by
  intro t
  induction t with
  | nil => intro h _; simp at h
  | cons b t ih =>
      intro h1 h2
      rw [List.findSome?_cons]
      cases hb : f b with
      | some v =>
          rw [h2 b (List.mem_cons_self b t) v hb]
      | none =>
          apply ih
          · rcases h1 with ⟨x, hx, hfx⟩
            rcases List.mem_cons.mp hx with hx | hx
            · rw [hx, hb] at hfx
              simp at hfx
            · exact ⟨x, hx, hfx⟩
          · intro x hx y hy
            exact h2 x (List.mem_cons_of_mem b hx) y hy

/-! ### `most_common1` and cache lemmas -/

theorem mc_step_ne_none {α : Type} (b : Option (α × Nat)) (p : α × Nat) :
    mc_step b p ≠ none := by
  cases b with
  | none => simp [mc_step]
  | some q =>
      rw [mc_step]
      split <;> simp

theorem foldl_mc_step_ne_none {α : Type} (t : List (α × Nat)) :
    ∀ b : Option (α × Nat), b ≠ none → t.foldl mc_step b ≠ none := by
  induction t with
  | nil => intro b hb; simpa using hb
  | cons p t ih =>
      intro b _
      rw [List.foldl_cons]
      exact ih (mc_step b p) (mc_step_ne_none b p)

theorem tally_ne_nil {α : Type} [DecidableEq α] (l : List α) (h : l ≠ []) :
    tally l ≠ [] := by
  obtain ⟨x, hx⟩ := List.exists_mem_of_ne_nil l h
  intro ht
  have : x ∈ (tally l).map Prod.fst := by
    rw [tally, foldl_bump_fst_mem]
    exact Or.inr hx
  rw [ht] at this
  simp at this

theorem most_common1_isSome {α : Type} [DecidableEq α] (l : List α)
    (h : l ≠ []) : ∃ a, most_common1 l = some a := by
  rw [most_common1]
  cases ht : tally l with
  | nil => exact absurd ht (tally_ne_nil l h)
  | cons p t =>
      have hne : (t.foldl mc_step (mc_step none p)) ≠ none :=
        foldl_mc_step_ne_none t _ (mc_step_ne_none none p)
      cases hb : t.foldl mc_step (mc_step none p) with
      | none => exact absurd hb hne
      | some q => exact ⟨q.1, by rw [List.foldl_cons, hb]; rfl⟩

theorem lookupCache_append (c l : List (List Move × Move)) (k : List Move)
    (v : Move) (h : lookupCache c k = some v) :
    lookupCache (c ++ l) k = some v := by
  induction c with
  | nil => simp [lookupCache] at h
  | cons e c ih =>
      obtain ⟨k1, v1⟩ := e
      rw [List.cons_append, lookupCache]
      rw [lookupCache] at h
      by_cases hk : k = k1
      · rwa [if_pos hk] at h ⊢
      · rw [if_neg hk] at h ⊢
        exact ih h

theorem get_pattern_prediction_snd_fields (pd : PatternDetector) :
    ((get_pattern_prediction pd).2).window_size = pd.window_size ∧
    ((get_pattern_prediction pd).2).frequency_threshold = pd.frequency_threshold ∧
    ((get_pattern_prediction pd).2).move_history = pd.move_history := by
  rw [get_pattern_prediction]
  split
  · exact ⟨rfl, rfl, rfl⟩
  · split
    · exact ⟨rfl, rfl, rfl⟩
    · split
      · exact ⟨rfl, rfl, rfl⟩
      · exact ⟨rfl, rfl, rfl⟩

theorem get_pattern_prediction_cache_shape (pd : PatternDetector) :
    ((get_pattern_prediction pd).2).pattern_cache = pd.pattern_cache ∨
    ∃ e, ((get_pattern_prediction pd).2).pattern_cache = pd.pattern_cache ++ [e] := by
  rw [get_pattern_prediction]
  split
  · exact Or.inl rfl
  · split
    · exact Or.inl rfl
    · split
      · exact Or.inr ⟨_, rfl⟩
      · exact Or.inl rfl

theorem get_pattern_prediction_cache_mono (pd : PatternDetector)
    (k : List Move) (v : Move) (h : lookupCache pd.pattern_cache k = some v) :
    lookupCache ((get_pattern_prediction pd).2).pattern_cache k = some v := by
  rcases get_pattern_prediction_cache_shape pd with hc | ⟨e, hc⟩
  · rwa [hc]
  · rw [hc]
    exact lookupCache_append _ _ _ _ h

theorem get_ai_move_snd (g : RPSLSGame) (r : Nat) :
    (get_ai_move g r).2 =
      { g with pattern_detector := (get_pattern_prediction g.pattern_detector).2 } := by
  cases hp : get_pattern_prediction g.pattern_detector with
  | mk op pd =>
      cases op with
      | some p => simp [get_ai_move, hp]
      | none =>
          cases hf : get_frequency_bias g.pattern_detector with
          | some f => simp [get_ai_move, hp, hf]
          | none =>
              by_cases hh : g.state.opponent_history = []
              · simp [get_ai_move, hp, hf, hh]
              · simp [get_ai_move, hp, hf, hh]

/-! ### `play_round` projections, reachability, and counter lemmas -/

theorem play_round_opp (g : RPSLSGame) (s : String) (cm : List Move)
    (rn r1 r2 : Nat) :
    (play_round g s cm rn r1 r2).1.2.1 = opponent_move_for g s cm rn r1 := rfl

theorem play_round_ai (g : RPSLSGame) (s : String) (cm : List Move)
    (rn r1 r2 : Nat) :
    (play_round g s cm rn r1 r2).1.1 =
      (get_ai_move
        { g with pattern_detector :=
            add_move g.pattern_detector (opponent_move_for g s cm rn r1) }
        r2).1 := rfl

theorem play_round_res (g : RPSLSGame) (s : String) (cm : List Move)
    (rn r1 r2 : Nat) :
    (play_round g s cm rn r1 r2).1.2.2 =
      get_result (play_round g s cm rn r1 r2).1.1
        (opponent_move_for g s cm rn r1) := rfl

theorem play_round_state_opp (g : RPSLSGame) (s : String) (cm : List Move)
    (rn r1 r2 : Nat) :
    (play_round g s cm rn r1 r2).2.state.opponent_history =
      g.state.opponent_history ++ [opponent_move_for g s cm rn r1] := by
  simp [play_round, get_ai_move_snd]

theorem play_round_cache (g : RPSLSGame) (s : String) (cm : List Move)
    (rn r1 r2 : Nat) :
    (play_round g s cm rn r1 r2).2.pattern_detector.pattern_cache =
      ((get_pattern_prediction
          (add_move g.pattern_detector (opponent_move_for g s cm rn r1))).2).pattern_cache := by
  simp [play_round, get_ai_move_snd]

theorem reachable_empty_eq_new (g : RPSLSGame) (h : Reachable g)
    (he : g.state.opponent_history = []) : g = newGame := by
  cases h with
  | base => rfl
  | step g0 s cm rn r1 r2 _ =>
      rw [play_round_state_opp] at he
      simp at he

theorem choice_mem (l : List Move) (r : Nat) (h : l ≠ []) : choice l r ∈ l := by
  have hlt : r % l.length < l.length := Nat.mod_lt _ (List.length_pos.mpr h)
  rw [choice, List.getD_eq_getElem?_getD, List.getElem?_eq_getElem hlt,
    Option.getD_some]
  exact List.getElem_mem hlt

theorem counters_win : ∀ m c : Move, c ∈ possible_counters m → get_result c m = 1 := by
  decide

theorem possible_counters_ne : ∀ m : Move, possible_counters m ≠ [] := by
  decide

theorem counter_beats (m : Move) (r : Nat) :
    get_result (get_counter_move m r) m = 1 :=
  counters_win m _ (choice_mem _ r (possible_counters_ne m))

theorem fresh_pattern (o : Move) :
    get_pattern_prediction (add_move newGame.pattern_detector o) =
      (none, add_move newGame.pattern_detector o) := rfl

theorem fresh_freq (o : Move) :
    get_frequency_bias (add_move newGame.pattern_detector o) = some o := by
  show get_frequency_bias
    { window_size := 3, frequency_threshold := 3 / 10, move_history := [o],
      pattern_cache := [] } = some o
  rw [get_frequency_bias]
  norm_num [tally, bump, List.findSome?]

theorem fresh_ai (o : Move) (r : Nat) :
    (get_ai_move
      { newGame with pattern_detector := add_move newGame.pattern_detector o }
      r).1 = get_counter_move o r := by
  simp [get_ai_move, fresh_pattern, fresh_freq]

/-! ### Claim theorems -/

/-- C1: `get_ai_move` follows a strict, short-circuiting priority chain:
a pattern prediction is countered if present; otherwise a frequency bias
is countered if present; otherwise, when the opponent's full history is
nonempty, its most frequent last-5 move (ties by first-encountered order)
is countered; and only with an empty full history is a uniform random
move over all 5 moves played. -/
theorem get_ai_move_tier_priority (g : RPSLSGame) (r : Nat) :
    (∀ p pd1, get_pattern_prediction g.pattern_detector = (some p, pd1) →
      get_ai_move g r = (get_counter_move p r, { g with pattern_detector := pd1 })) ∧
    (∀ pd1, get_pattern_prediction g.pattern_detector = (none, pd1) →
      (∀ f, get_frequency_bias g.pattern_detector = some f →
        get_ai_move g r = (get_counter_move f r, { g with pattern_detector := pd1 })) ∧
      (get_frequency_bias g.pattern_detector = none →
        (g.state.opponent_history ≠ [] →
          get_ai_move g r =
            (get_counter_move
              ((most_common1 (last5 g.state.opponent_history)).getD rock) r,
             { g with pattern_detector := pd1 })) ∧
        (g.state.opponent_history = [] →
          get_ai_move g r = (choice MOVES r, { g with pattern_detector := pd1 })))) := by
  refine ⟨?_, ?_⟩
  · intro p pd1 hp
    simp [get_ai_move, hp]
  · intro pd1 hp
    refine ⟨?_, ?_⟩
    · intro f hf
      simp [get_ai_move, hp, hf]
    · intro hf
      refine ⟨?_, ?_⟩
      · intro hne
        simp [get_ai_move, hp, hf, hne]
      · intro he
        simp [get_ai_move, hp, hf, he]

/-- Witness for C1: on a fresh game every tier yields no signal, so the
fallback branch is taken. -/
theorem get_ai_move_tier_priority_w :
    get_ai_move newGame 7 =
      (choice MOVES 7, { newGame with pattern_detector := newGame.pattern_detector }) :=
  (((get_ai_move_tier_priority newGame 7).2 newGame.pattern_detector rfl).2 rfl).2 rfl

/-- C2: `get_pattern_prediction` returns no prediction below
`window_size` moves; on a cache hit for the last `window_size` moves it
returns the cached move; on a cache miss it collects the followers of
every earlier occurrence of that sequence, returning their stable
most-common (caching the pair) when any exist and nothing otherwise. -/
theorem get_pattern_prediction_spec (pd : PatternDetector) :
    (pd.move_history.length < pd.window_size →
      get_pattern_prediction pd = (none, pd)) ∧
    (pd.window_size ≤ pd.move_history.length →
      (∀ v, lookupCache pd.pattern_cache (recent_moves pd) = some v →
        get_pattern_prediction pd = (some v, pd)) ∧
      (lookupCache pd.pattern_cache (recent_moves pd) = none →
        (pattern_occurrences pd = [] → get_pattern_prediction pd = (none, pd)) ∧
        (pattern_occurrences pd ≠ [] →
          ∃ p, most_common1 (pattern_occurrences pd) = some p ∧
            get_pattern_prediction pd =
              (some p,
               { pd with pattern_cache :=
                   pd.pattern_cache ++ [(recent_moves pd, p)] })))) := by
  constructor
  · intro h
    simp [get_pattern_prediction, h]
  · intro hlen
    have hnot : ¬ pd.move_history.length < pd.window_size := Nat.not_lt.mpr hlen
    refine ⟨?_, ?_⟩
    · intro v hv
      simp [get_pattern_prediction, hnot, hv]
    · intro hc
      refine ⟨?_, ?_⟩
      · intro hocc
        have hmc : most_common1 (pattern_occurrences pd) = none := by
          rw [hocc]
          rfl
        simp [get_pattern_prediction, hnot, hc, hmc]
      · intro hocc
        obtain ⟨p, hp⟩ := most_common1_isSome _ hocc
        exact ⟨p, hp, by simp [get_pattern_prediction, hnot, hc, hp]⟩

/-- Witness for C2: a 5-move window whose last 3 moves recur at the start
followed by `paper`; the prediction is `paper` and it is cached. -/
theorem get_pattern_prediction_spec_w :
    get_pattern_prediction
        { move_history := [rock, paper, rock, paper, rock] } =
      (some paper,
       { move_history := [rock, paper, rock, paper, rock],
         pattern_cache := [([rock, paper, rock], paper)] }) := by
  obtain ⟨p, hp, he⟩ :=
    (((get_pattern_prediction_spec
        { move_history := [rock, paper, rock, paper, rock] }).2
      (by decide)).2 rfl).2 (by decide)
  have hpaper : p = paper := by
    have hmc : most_common1
        (pattern_occurrences
          { move_history := [rock, paper, rock, paper, rock] }) = some paper := by
      decide
    rw [hp] at hmc
    exact Option.some.inj hmc
  rw [hpaper] at he
  exact he

/-- C4: the win table is closed and self-consistent: for distinct moves
exactly one direction beats the other, every move draws against itself,
and no ordered pair is a mutual win. -/
theorem win_relation_closed :
    (∀ a b : Move, a ≠ b →
      Xor' (b ∈ WINS_AGAINST a) (a ∈ WINS_AGAINST b)) ∧
    (∀ a : Move, get_result a a = 0) ∧
    (∀ a b : Move, ¬(get_result a b = 1 ∧ get_result b a = 1)) := by
  refine ⟨?_, ?_, ?_⟩ <;> decide

/-- Witness for C4: paper beats rock and rock does not beat paper. -/
theorem win_relation_closed_w :
    Xor' (paper ∈ WINS_AGAINST rock) (rock ∈ WINS_AGAINST paper) :=
  win_relation_closed.1 rock paper (by decide)

/-- C5: every move has exactly 2 counter-moves, and each counter wins
against it. -/
theorem counters_card_and_win :
    ∀ m : Move, (possible_counters m).length = 2 ∧
      ∀ c ∈ possible_counters m, get_result c m = 1 := by
  decide

/-- Witness for C5: paper is a counter of rock and beats it. -/
theorem counters_card_and_win_w : get_result paper rock = 1 :=
  (counters_card_and_win rock).2 paper (by decide)

/-- The cycling branch of `opponent_move_for` in terms of `cycling_next`. -/
theorem opp_cycling (g : RPSLSGame) (cm : List Move) (rn r1 : Nat) :
    opponent_move_for g "cycling" cm rn r1 =
      cycling_next g.state.opponent_history := by
  rw [opponent_move_for, if_neg (by decide), if_neg (by decide), if_pos rfl]

/-- C3 counterexample: a 10-move window with 4 rocks for which Tier 1
yields no prediction, yet Tier 2 predicts `paper` (3 occurrences, share
exactly 0.3, enumerated first), not `rock`. -/
theorem freq_bias_c3_cex :
    c3_pd.move_history.length = 10 ∧
    c3_pd.move_history.count rock = 4 ∧
    (get_pattern_prediction c3_pd).1 = none ∧
    get_frequency_bias c3_pd = some paper ∧
    get_frequency_bias c3_pd ≠ some rock := by
  have h4 : get_frequency_bias c3_pd = some paper := by
    norm_num [get_frequency_bias, c3_pd, c3_window, tally, bump, List.findSome?]
    intro h
    exact absurd h (List.cons_ne_nil _ _)
  refine ⟨by decide, by decide, by decide, h4, ?_⟩
  rw [h4]
  simp

/-- C3 (amended): in a 10-move rolling window where `rock` appears 4
times, Tier 2 predicts `rock` provided no other move reaches the 0.3
threshold (each other move appears at most 2 times); in general Tier 2
returns the first move, in first-occurrence order, whose share reaches
the threshold, which need not be `rock` when another move with share at
least 0.3 occurs earlier in the window. -/
theorem freq_bias_rock_amended (pd : PatternDetector)
    (hthr : pd.frequency_threshold = 3 / 10)
    (hlen : pd.move_history.length = 10)
    (hrock : pd.move_history.count rock = 4)
    (hothers : ∀ m : Move, m ≠ rock → pd.move_history.count m ≤ 2) :
    get_frequency_bias pd = some rock := by
  have hne : pd.move_history ≠ [] := by
    intro h
    rw [h] at hlen
    simp at hlen
  rw [get_frequency_bias, if_neg hne]
  apply findSome_eq_of_forall
  · have hmem : rock ∈ pd.move_history := by
      have hpos : 0 < pd.move_history.count rock := by
        rw [hrock]
        norm_num
      exact List.count_pos_iff.mp hpos
    refine ⟨(rock, pd.move_history.count rock), mem_tally_of_mem _ _ hmem, ?_⟩
    simp only [hrock, hlen, hthr]
    rw [if_pos (by push_cast; norm_num)]
    simp
  · intro x hx y hy
    have hcnt : x.2 = pd.move_history.count x.1 := tally_mem_count _ _ hx
    by_cases hx1 : x.1 = rock
    · simp only [] at hy
      split at hy
      · rw [← Option.some.inj hy]
        exact hx1
      · exact absurd hy (by simp)
    · have hle : x.2 ≤ 2 := by
        rw [hcnt]
        exact hothers x.1 hx1
      have hcond : ¬ (pd.frequency_threshold ≤
          (x.2 : ℚ) / (pd.move_history.length : ℚ)) := by
        rw [hthr, hlen, not_le]
        have h2 : (x.2 : ℚ) ≤ 2 := by exact_mod_cast hle
        push_cast
        linarith
      rw [if_neg hcond] at hy
      exact absurd hy (by simp)

/-- Witness for the amended C3: rock 4 times, every other move at most
twice; the prediction is rock. -/
theorem freq_bias_rock_amended_w :
    get_frequency_bias
      { move_history := [rock, rock, rock, rock, paper, paper, scissors,
          scissors, lizard, spock] } = some rock :=
  freq_bias_rock_amended _ rfl rfl (by decide) (by decide)

/-- C6: on a freshly created game the first `play_round` always returns
outcome 1 (Win), for every opponent strategy and all random draws: the
single-entry rolling window makes Tier 2 predict the opponent's current
move, which the chosen counter-move beats. -/
theorem first_round_always_win (strat : String) (cm : List Move)
    (rn rOpp rAI : Nat) :
    (play_round newGame strat cm rn rOpp rAI).1.2.2 = 1 := by
  rw [play_round_res, play_round_ai, fresh_ai]
  exact counter_beats _ rAI

/-- C7: through `play_round` on a reachable game the Tier 4 uniform
fallback never fires: the guard that would select it (no pattern, no
frequency bias, empty full history) is unsatisfiable at prediction time,
and the AI move is always a counter-move of some predicted move. -/
theorem tier4_unreachable (g : RPSLSGame) (hg : Reachable g) (strat : String)
    (cm : List Move) (rn rOpp rAI : Nat) :
    ¬ ((get_pattern_prediction
          (add_move g.pattern_detector (opponent_move_for g strat cm rn rOpp))).1 = none ∧
        get_frequency_bias
          (add_move g.pattern_detector (opponent_move_for g strat cm rn rOpp)) = none ∧
        g.state.opponent_history = []) ∧
    ∃ p : Move, (play_round g strat cm rn rOpp rAI).1.1 = get_counter_move p rAI := by
  have hguard : ¬ ((get_pattern_prediction
        (add_move g.pattern_detector (opponent_move_for g strat cm rn rOpp))).1 = none ∧
      get_frequency_bias
        (add_move g.pattern_detector (opponent_move_for g strat cm rn rOpp)) = none ∧
      g.state.opponent_history = []) := by
    rintro ⟨_, h2, h3⟩
    rw [reachable_empty_eq_new g hg h3, fresh_freq] at h2
    exact Option.noConfusion h2
  refine ⟨hguard, ?_⟩
  rw [play_round_ai]
  cases hp : get_pattern_prediction
      (add_move g.pattern_detector (opponent_move_for g strat cm rn rOpp)) with
  | mk op pd =>
      cases op with
      | some p => exact ⟨p, by simp [get_ai_move, hp]⟩
      | none =>
          cases hf : get_frequency_bias
              (add_move g.pattern_detector (opponent_move_for g strat cm rn rOpp)) with
          | some f => exact ⟨f, by simp [get_ai_move, hp, hf]⟩
          | none =>
              by_cases hh : g.state.opponent_history = []
              · exact absurd ⟨by rw [hp], hf, hh⟩ hguard
              · exact ⟨(most_common1 (last5 g.state.opponent_history)).getD rock,
                  by simp [get_ai_move, hp, hf, hh]⟩

/-- Witness for C7: the fresh game with the random strategy. -/
theorem tier4_unreachable_w :
    ¬ ((get_pattern_prediction
          (add_move newGame.pattern_detector
            (opponent_move_for newGame "random" [] 0 0))).1 = none ∧
        get_frequency_bias
          (add_move newGame.pattern_detector
            (opponent_move_for newGame "random" [] 0 0)) = none ∧
        newGame.state.opponent_history = []) ∧
    ∃ p : Move, (play_round newGame "random" [] 0 0 0).1.1 = get_counter_move p 0 :=
  tier4_unreachable newGame Reachable.base "random" [] 0 0 0

/-- C8: any strategy name other than the four recognized ones behaves
identically to "random": the whole `play_round` call is equal, and in
particular no error is possible. -/
theorem unknown_strategy_like_random (g : RPSLSGame) (cm : List Move)
    (rn rOpp rAI : Nat) (s : String)
    (h1 : s ≠ "random") (h2 : s ≠ "repeating") (h3 : s ≠ "cycling")
    (h4 : s ≠ "custom") :
    play_round g s cm rn rOpp rAI = play_round g "random" cm rn rOpp rAI := by
  have ho : opponent_move_for g s cm rn rOpp =
      opponent_move_for g "random" cm rn rOpp := by
    rw [opponent_move_for, opponent_move_for,
      if_neg h1, if_neg h2, if_neg h3, if_neg h4, if_pos rfl]
  simp only [play_round, ho]

/-- Witness for C8: the unrecognized name "bogus". -/
theorem unknown_strategy_like_random_w :
    play_round newGame "bogus" [] 0 0 0 = play_round newGame "random" [] 0 0 0 :=
  unknown_strategy_like_random newGame [] 0 0 0 "bogus"
    (by decide) (by decide) (by decide) (by decide)

/-- C9: with an unchanged rolling window and a cache hit for the last
`window_size` moves, `get_pattern_prediction` returns the cached move and
leaves the detector (cache included) unchanged, so repeated calls agree;
moreover any cache entry survives an arbitrary further round unchanged. -/
theorem pattern_cache_idempotent (g : RPSLSGame) (v : Move)
    (hlen : g.pattern_detector.window_size ≤ g.pattern_detector.move_history.length)
    (hhit : lookupCache g.pattern_detector.pattern_cache
      (recent_moves g.pattern_detector) = some v) :
    get_pattern_prediction g.pattern_detector = (some v, g.pattern_detector) ∧
    (∀ k w, lookupCache g.pattern_detector.pattern_cache k = some w →
      ∀ s cm rn r1 r2,
        lookupCache
          (play_round g s cm rn r1 r2).2.pattern_detector.pattern_cache k = some w) := by
  constructor
  · have hnot : ¬ g.pattern_detector.move_history.length <
        g.pattern_detector.window_size := Nat.not_lt.mpr hlen
    simp [get_pattern_prediction, hnot, hhit]
  · intro k w hw s cm rn r1 r2
    rw [play_round_cache]
    apply get_pattern_prediction_cache_mono
    have hc : (add_move g.pattern_detector
        (opponent_move_for g s cm rn r1)).pattern_cache =
        g.pattern_detector.pattern_cache := rfl
    rw [hc]
    exact hw

/-- Witness for C9: a cached entry for the current 3-move window is
returned verbatim with the detector unchanged. -/
theorem pattern_cache_idempotent_w :
    get_pattern_prediction
        { move_history := [rock, paper, rock],
          pattern_cache := [([rock, paper, rock], spock)] } =
      (some spock,
       { move_history := [rock, paper, rock],
         pattern_cache := [([rock, paper, rock], spock)] }) :=
  (pattern_cache_idempotent
    { pattern_detector :=
        { move_history := [rock, paper, rock],
          pattern_cache := [([rock, paper, rock], spock)] } }
    spock (by decide) rfl).1

/-- C10: with the cycling strategy on a fresh game, the opponent's moves
in the first 5 rounds are exactly the 5 moves in table order, whatever
the random draws are. -/
theorem cycling_first_five (a1 b1 a2 b2 a3 b3 a4 b4 a5 b5 : Nat) :
    [(play_round newGame "cycling" [] 0 a1 b1).1.2.1,
     (play_round (play_round newGame "cycling" [] 0 a1 b1).2
       "cycling" [] 1 a2 b2).1.2.1,
     (play_round (play_round (play_round newGame "cycling" [] 0 a1 b1).2
       "cycling" [] 1 a2 b2).2 "cycling" [] 2 a3 b3).1.2.1,
     (play_round (play_round (play_round (play_round newGame
       "cycling" [] 0 a1 b1).2 "cycling" [] 1 a2 b2).2
       "cycling" [] 2 a3 b3).2 "cycling" [] 3 a4 b4).1.2.1,
     (play_round (play_round (play_round (play_round (play_round newGame
       "cycling" [] 0 a1 b1).2 "cycling" [] 1 a2 b2).2 "cycling" [] 2 a3 b3).2
       "cycling" [] 3 a4 b4).2 "cycling" [] 4 a5 b5).1.2.1] = MOVES := by
  have h1h : (play_round newGame "cycling" [] 0 a1 b1).2.state.opponent_history
      = [rock] := by
    rw [play_round_state_opp, opp_cycling]
    rfl
  have h2h : (play_round (play_round newGame "cycling" [] 0 a1 b1).2
      "cycling" [] 1 a2 b2).2.state.opponent_history = [rock, paper] := by
    rw [play_round_state_opp, opp_cycling, h1h]
    rfl
  have h3h : (play_round (play_round (play_round newGame
      "cycling" [] 0 a1 b1).2 "cycling" [] 1 a2 b2).2
      "cycling" [] 2 a3 b3).2.state.opponent_history
      = [rock, paper, scissors] := by
    rw [play_round_state_opp, opp_cycling, h2h]
    rfl
  have h4h : (play_round (play_round (play_round (play_round newGame
      "cycling" [] 0 a1 b1).2 "cycling" [] 1 a2 b2).2 "cycling" [] 2 a3 b3).2
      "cycling" [] 3 a4 b4).2.state.opponent_history
      = [rock, paper, scissors, lizard] := by
    rw [play_round_state_opp, opp_cycling, h3h]
    rfl
  have h1 : (play_round newGame "cycling" [] 0 a1 b1).1.2.1 = rock := by
    rw [play_round_opp, opp_cycling]
    rfl
  have h2 : (play_round (play_round newGame "cycling" [] 0 a1 b1).2
      "cycling" [] 1 a2 b2).1.2.1 = paper := by
    rw [play_round_opp, opp_cycling, h1h]
    rfl
  have h3 : (play_round (play_round (play_round newGame
      "cycling" [] 0 a1 b1).2 "cycling" [] 1 a2 b2).2
      "cycling" [] 2 a3 b3).1.2.1 = scissors := by
    rw [play_round_opp, opp_cycling, h2h]
    rfl
  have h4 : (play_round (play_round (play_round (play_round newGame
      "cycling" [] 0 a1 b1).2 "cycling" [] 1 a2 b2).2 "cycling" [] 2 a3 b3).2
      "cycling" [] 3 a4 b4).1.2.1 = lizard := by
    rw [play_round_opp, opp_cycling, h3h]
    rfl
  have h5 : (play_round (play_round (play_round (play_round (play_round newGame
      "cycling" [] 0 a1 b1).2 "cycling" [] 1 a2 b2).2 "cycling" [] 2 a3 b3).2
      "cycling" [] 3 a4 b4).2 "cycling" [] 4 a5 b5).1.2.1 = spock := by
    rw [play_round_opp, opp_cycling, h4h]
    rfl
  rw [h1, h2, h3, h4, h5]
  rfl
